import Mathlib

/-!
Shallow embedding of `AppleMusicXmlToLidarr.py`: a batch tool that matches
Apple Music library records against MusicBrainz and partitions them into a
found list (MusicBrainz ids) and a not-found list (original records), with a
recheck mode that retries the not-found file.

Python values are embedded as follows: tracks of the plist become a list of
`TrackEntry` (dict values in insertion order); `None`-able strings become
`Option String`; Python truthiness of a string (`if s:`) becomes `s != ""`;
the HTTP fetch plus JSON decode of the two search functions becomes an oracle
`String → FetchResult` mapping the query string to the outcome; raising an
exception is the `FetchResult.fail` outcome; writing the two output files is
reflected in the `written` field of `RecheckOutcome` (none = nothing written).
-/

namespace AppleMusicXmlToLidarr

/-- Python truthiness of an optional string: `None` and `""` are falsy. -/
def pyTruthy : Option String → Bool
  | none => false
  | some s => s != ""

/-- Python truthiness of a plain string: `""` is falsy. -/
def pyTruthyS (s : String) : Bool := s != ""

/-- Python `name.endswith(suffix)`: Python strings are sequences of code
points, which match Lean `Char` lists. -/
def endswith (name suffix : String) : Bool := suffix.data.isSuffixOf name.data

/-- The suffix list of `clean_name_for_search` (source line 34). -/
def suffixes_to_remove : List String := [" - Single", " - EP", " - single", " - ep"]

/-- Core of `clean_name_for_search` on an actual string (source lines 30-40):
if the name ends with the first matching suffix of `suffixes_to_remove`,
return the name with that many trailing characters removed (`name[:-len(suffix)]`),
else return the name unchanged. -/
def clean_core (name : String) : String :=
  if name = "" then name
  else
    match suffixes_to_remove.find? (fun suffix => endswith name suffix) with
    | some suffix => name.dropRight suffix.length
    | none => name

/-- `clean_name_for_search` (source lines 19-40), including the `None` case
admitted by its callers and tests (`if not name: return name`). -/
def clean_name_for_search : Option String → Option String
  | none => none
  | some name => some (clean_core name)

/-- One value of the plist's `Tracks` dict: the fields the program reads
(`Artist`, `Name`, `Album`), each possibly missing. -/
structure TrackEntry where
  Artist : Option String
  Name : Option String
  Album : Option String
deriving DecidableEq, Repr

/-- A track record `{artist, title, album}` as built by
`parse_apple_music_xml`. -/
structure Song where
  artist : String
  title : String
  album : Option String
deriving DecidableEq, Repr

/-- An album record `{artist, album}` as built by `extract_unique_albums`. -/
structure AlbumRec where
  artist : String
  album : String
deriving DecidableEq, Repr

/-- A found-list entry `{"MusicBrainzId": mbid}`. -/
structure MBEntry where
  MusicBrainzId : String
deriving DecidableEq, Repr

/-- One element of the JSON `recordings` / `release-groups` array; the
program reads its `id` field with default `""` (`.get("id", "")`). -/
structure MBRecord where
  id : Option String
deriving DecidableEq, Repr

/-- Outcome of one HTTP fetch plus JSON decode inside the `try` block:
`fail` is any raised exception (network error, timeout, bad JSON);
`ok none` is a JSON body without the expected list key;
`ok (some rs)` is a body whose list key holds `rs`. -/
inductive FetchResult where
  | fail
  | ok (items : Option (List MBRecord))
deriving DecidableEq, Repr

/-- The query string of `search_musicbrainz_recording` (source lines 50-56):
title and album are cleaned, the album clause is added only when the album
argument and its cleaned form are truthy. -/
def recording_query (artist title : String) (album : Option String) : String :=
  let clean_title := clean_core title
  let clean_album : Option String :=
    if pyTruthy album then some (clean_core (album.getD "")) else none
  let q := "recording:\"" ++ clean_title ++ "\" AND artist:\"" ++ artist ++ "\""
  if pyTruthy clean_album then
    q ++ " AND release:\"" ++ clean_album.getD "" ++ "\""
  else q

/-- The query string of `search_musicbrainz_release_group` (source lines
84-87): the album name is cleaned unconditionally. -/
def release_group_query (artist album : String) : String :=
  "release:\"" ++ clean_core album ++ "\" AND artist:\"" ++ artist ++ "\""

/-- Shared tail of both search functions (source lines 67-74 and 98-105):
on an exception return `""`; if the list key is present and the list
non-empty return the first element's `id` (default `""`); else `""`. -/
def first_result_id : FetchResult → String
  | .fail => ""
  | .ok none => ""
  | .ok (some []) => ""
  | .ok (some (r :: _)) => r.id.getD ""

/-- `search_musicbrainz_recording` (source lines 42-74), with the HTTP
transport abstracted as the oracle `fetch` from query string to outcome. -/
def search_musicbrainz_recording (fetch : String → FetchResult)
    (artist title : String) (album : Option String) : String :=
  first_result_id (fetch (recording_query artist title album))

/-- `search_musicbrainz_release_group` (source lines 76-105), with the HTTP
transport abstracted as the oracle `fetch`. -/
def search_musicbrainz_release_group (fetch : String → FetchResult)
    (artist album : String) : String :=
  first_result_id (fetch (release_group_query artist album))

/-- `parse_apple_music_xml` (source lines 107-122) after plist loading: keep
each entry having truthy `Artist` and `Name`, in file order. -/
def parse_apple_music_xml : List TrackEntry → List Song
  | [] => []
  | t :: ts =>
    if pyTruthy t.Artist && pyTruthy t.Name then
      ⟨t.Artist.getD "", t.Name.getD "", t.Album⟩ :: parse_apple_music_xml ts
    else parse_apple_music_xml ts

/-- Loop of `extract_unique_albums` (source lines 137-145): `seen` is the
`unique_albums` set of `(artist, album)` keys already emitted. -/
def extract_albums_aux (seen : List (String × String)) :
    List TrackEntry → List AlbumRec
  | [] => []
  | t :: ts =>
    if pyTruthy t.Artist && pyTruthy t.Album then
      let key := (t.Artist.getD "", t.Album.getD "")
      if key ∈ seen then extract_albums_aux seen ts
      else ⟨key.1, key.2⟩ :: extract_albums_aux (key :: seen) ts
    else extract_albums_aux seen ts

/-- `extract_unique_albums` (source lines 124-147) after plist loading. -/
def extract_unique_albums (tracks : List TrackEntry) : List AlbumRec :=
  extract_albums_aux [] tracks

/-- `build_lidarr_json` (source lines 149-164): per song, one recording
lookup; a truthy mbid appends `{"MusicBrainzId": mbid}` to `found`,
otherwise the song itself goes to `not_found`. -/
def build_lidarr_json (fetch : String → FetchResult) :
    List Song → List MBEntry × List Song
  | [] => ([], [])
  | s :: ss =>
    let mbid := search_musicbrainz_recording fetch s.artist s.title s.album
    let rest := build_lidarr_json fetch ss
    if pyTruthyS mbid then (⟨mbid⟩ :: rest.1, rest.2)
    else (rest.1, s :: rest.2)

/-- `build_albums_json` (source lines 166-181): as `build_lidarr_json` but
with the release-group lookup over album records. -/
def build_albums_json (fetch : String → FetchResult) :
    List AlbumRec → List MBEntry × List AlbumRec
  | [] => ([], [])
  | a :: as_ =>
    let mbid := search_musicbrainz_release_group fetch a.artist a.album
    let rest := build_albums_json fetch as_
    if pyTruthyS mbid then (⟨mbid⟩ :: rest.1, rest.2)
    else (rest.1, a :: rest.2)

/-- Result of `json.load` on one of the two state files: the file may be
absent (`FileNotFoundError`), malformed (`json.JSONDecodeError`), or hold a
parsed value. -/
inductive LoadResult (α : Type) where
  | absent
  | malformed
  | ok (val : α)
deriving DecidableEq, Repr

/-- What one call of `recheck_not_found_items` did: `written = some (f, nf)`
means the found file was rewritten with `f` and the not-found file with `nf`;
`written = none` means the function returned early and wrote nothing.
`queried` lists the items on which `search_func` was invoked, in order. -/
structure RecheckOutcome (α : Type) where
  written : Option (List MBEntry × List α)
  queried : List α
deriving Repr

/-- The per-item loop of `recheck_not_found_items` (source lines 224-235):
returns `(newly_found, still_not_found)`. -/
def recheck_process (search : α → String) : List α → List MBEntry × List α
  | [] => ([], [])
  | i :: is_ =>
    let mbid := search i
    let rest := recheck_process search is_
    if pyTruthyS mbid then (⟨mbid⟩ :: rest.1, rest.2)
    else (rest.1, i :: rest.2)

/-- `newly_found` of one recheck pass. -/
def newly_found (search : α → String) (items : List α) : List MBEntry :=
  (recheck_process search items).1

/-- `still_not_found` of one recheck pass. -/
def still_not_found (search : α → String) (items : List α) : List α :=
  (recheck_process search items).2

/-- `recheck_not_found_items` (source lines 183-248). The not-found file is
loaded first: absent or malformed is an error return before anything else.
An empty loaded list is an early return before the found file is read.
Then the found file is loaded: absent means `existing_found = []`, malformed
is an error return. Only then does the lookup loop run, and both files are
rewritten: found file with `existing_found ++ newly_found`, not-found file
with `still_not_found`. -/
def recheck_not_found_items (search : α → String)
    (found_file : LoadResult (List MBEntry)) (not_found_file : LoadResult (List α)) :
    RecheckOutcome α :=
  match not_found_file with
  | .absent => ⟨none, []⟩
  | .malformed => ⟨none, []⟩
  | .ok not_found_items =>
    if not_found_items.isEmpty then ⟨none, []⟩
    else
      match found_file with
      | .malformed => ⟨none, []⟩
      | .absent =>
        let r := recheck_process search not_found_items
        ⟨some ([] ++ r.1, r.2), not_found_items⟩
      | .ok existing_found =>
        let r := recheck_process search not_found_items
        ⟨some (existing_found ++ r.1, r.2), not_found_items⟩

/-- The `search_track` closure of `recheck_not_found` (source lines 255-256). -/
def search_track (fetch : String → FetchResult) (item : Song) : String :=
  search_musicbrainz_recording fetch item.artist item.title item.album

/-- The `search_album` closure of `recheck_not_found_albums` (source lines
268-269). -/
def search_album (fetch : String → FetchResult) (item : AlbumRec) : String :=
  search_musicbrainz_release_group fetch item.artist item.album

/-- The `(artist, album)` key an entry contributes to `extract_unique_albums`
(source line 142). -/
def pairOf (t : TrackEntry) : String × String := (t.Artist.getD "", t.Album.getD "")

/-- The guard `if artist and album:` of `extract_unique_albums` (source
line 140). -/
def validAlbum (t : TrackEntry) : Bool := pyTruthy t.Artist && pyTruthy t.Album

/-- Reference deduplication keeping the first occurrence: keep the head and
drop its later duplicates before recursing. Stated from the spec's words
"only first occurrence kept, insertion order preserved"; used to check
`extract_unique_albums` against it. -/
def dedupFirst {β : Type} [DecidableEq β] : List β → List β
  | [] => []
  | x :: xs => x :: dedupFirst (xs.filter fun y => decide (y ≠ x))
termination_by l => l.length
decreasing_by
  simp_wf
  exact Nat.lt_succ_of_le (List.length_filter_le _ _)

/-- Seen-set formulation of keep-first deduplication, the bridge between
`extract_albums_aux` and `dedupFirst`. -/
def dedupFirstFrom {β : Type} [DecidableEq β] (seen : List β) : List β → List β
  | [] => []
  | x :: xs =>
    if x ∈ seen then dedupFirstFrom seen xs
    else x :: dedupFirstFrom (x :: seen) xs

/-- The seen set after one pass of `dedupFirstFrom`. -/
def seenAfter {β : Type} [DecidableEq β] (seen : List β) : List β → List β
  | [] => seen
  | x :: xs =>
    if x ∈ seen then seenAfter seen xs
    else seenAfter (x :: seen) xs

/-! ### Characterization of the batch loops -/

/-- `build_lidarr_json` is the generic recheck loop run with the track
search closure. -/
lemma build_lidarr_json_eq_process (fetch : String → FetchResult)
    (songs : List Song) :
    build_lidarr_json fetch songs = recheck_process (search_track fetch) songs := by
  induction songs with
  | nil => rfl
  | cons s ss ih => simp [build_lidarr_json, recheck_process, search_track, ih]

/-- `build_albums_json` is the generic recheck loop run with the album
search closure. -/
lemma build_albums_json_eq_process (fetch : String → FetchResult)
    (albums : List AlbumRec) :
    build_albums_json fetch albums = recheck_process (search_album fetch) albums := by
  induction albums with
  | nil => rfl
  | cons a as_ ih => simp [build_albums_json, recheck_process, search_album, ih]

/-- The found side of the loop: the matched items in input order, each
replaced by its `MusicBrainzId` entry. -/
lemma recheck_process_fst {α : Type} (search : α → String) (items : List α) :
    (recheck_process search items).1 =
      (items.filter fun i => pyTruthyS (search i)).map fun i => MBEntry.mk (search i) := by
  induction items with
  | nil => rfl
  | cons i is_ ih =>
    simp only [recheck_process, List.filter_cons]
    cases h : pyTruthyS (search i) <;> simp [h, ih]

/-- The not-found side of the loop: the unmatched items, kept verbatim, in
input order. -/
lemma recheck_process_snd {α : Type} (search : α → String) (items : List α) :
    (recheck_process search items).2 =
      items.filter fun i => !pyTruthyS (search i) := by
  induction items with
  | nil => rfl
  | cons i is_ ih =>
    simp only [recheck_process, List.filter_cons]
    cases h : pyTruthyS (search i) <;> simp [h, ih]

/-- The loop distributes over concatenation of the input. -/
lemma recheck_process_append {α : Type} (search : α → String) (xs ys : List α) :
    recheck_process search (xs ++ ys) =
      ((recheck_process search xs).1 ++ (recheck_process search ys).1,
       (recheck_process search xs).2 ++ (recheck_process search ys).2) := by
  induction xs with
  | nil => simp [recheck_process]
  | cons x xs_ ih =>
    simp only [List.cons_append, recheck_process, ih]
    cases h : pyTruthyS (search x) <;> simp [h, ih]

/-- On a list whose every element fails the lookup, the loop finds nothing
and returns the list unchanged. -/
lemma recheck_process_all_fail {α : Type} (search : α → String) :
    ∀ items : List α, (∀ i ∈ items, pyTruthyS (search i) = false) →
      recheck_process search items = ([], items) := by
  intro items
  induction items with
  | nil => intro _; rfl
  | cons i is_ ih =>
    intro h
    have hi := h i (by simp)
    have hrest := ih (fun j hj => h j (by simp [hj]))
    simp [recheck_process, hi, hrest]

/-- Rerunning the loop on its own not-found output with the same answers
finds nothing new and keeps the list intact. -/
lemma recheck_process_still_not_found {α : Type} (search : α → String)
    (items : List α) :
    recheck_process search (still_not_found search items) =
      ([], still_not_found search items) := by
  unfold still_not_found
  rw [recheck_process_snd]
  apply recheck_process_all_fail
  intro i hi
  have := (List.mem_filter.1 hi).2
  simpa using this

/-- C1: for every fetch oracle and every input list, the Batch Processor
(`build_lidarr_json` for tracks, `build_albums_json` for albums) partitions
the input: the not-found list is exactly the unmatched inputs in original
order, the found list is exactly the matched inputs in match order (each
carried as its `MusicBrainzId` entry), matched and unmatched lists are the
two disjoint filter halves whose concatenation is a permutation of the
input, and the output sizes sum to the input size — so every input record
is accounted for in exactly one of the two output lists. -/
theorem batch_processor_partitions_input (fetch : String → FetchResult)
    (songs : List Song) (albums : List AlbumRec) :
    ((build_lidarr_json fetch songs).1 =
        (songs.filter fun s => pyTruthyS (search_track fetch s)).map
          (fun s => MBEntry.mk (search_track fetch s))
      ∧ (build_lidarr_json fetch songs).2 =
          songs.filter (fun s => !pyTruthyS (search_track fetch s))
      ∧ List.Perm
          ((songs.filter fun s => pyTruthyS (search_track fetch s)) ++
            songs.filter (fun s => !pyTruthyS (search_track fetch s))) songs
      ∧ (build_lidarr_json fetch songs).1.length +
          (build_lidarr_json fetch songs).2.length = songs.length)
    ∧ ((build_albums_json fetch albums).1 =
        (albums.filter fun a => pyTruthyS (search_album fetch a)).map
          (fun a => MBEntry.mk (search_album fetch a))
      ∧ (build_albums_json fetch albums).2 =
          albums.filter (fun a => !pyTruthyS (search_album fetch a))
      ∧ List.Perm
          ((albums.filter fun a => pyTruthyS (search_album fetch a)) ++
            albums.filter (fun a => !pyTruthyS (search_album fetch a))) albums
      ∧ (build_albums_json fetch albums).1.length +
          (build_albums_json fetch albums).2.length = albums.length) := by
  have perm1 := List.filter_append_perm (fun s => pyTruthyS (search_track fetch s)) songs
  have perm2 := List.filter_append_perm (fun a => pyTruthyS (search_album fetch a)) albums
  have e1 := build_lidarr_json_eq_process fetch songs
  have e2 := build_albums_json_eq_process fetch albums
  have len1 := perm1.length_eq
  have len2 := perm2.length_eq
  refine ⟨⟨?_, ?_, perm1, ?_⟩, ⟨?_, ?_, perm2, ?_⟩⟩
  · rw [e1, recheck_process_fst]
  · rw [e1, recheck_process_snd]
  · rw [e1, recheck_process_fst, recheck_process_snd]
    simpa using len1
  · rw [e2, recheck_process_fst]
  · rw [e2, recheck_process_snd]
  · rw [e2, recheck_process_fst, recheck_process_snd]
    simpa using len2

/-- C2: for every recheck run over a loaded (non-empty) not-found list and
loaded found list, the rewritten found file is the previously-loaded found
records concatenated with the newly-found entries of this pass, the
rewritten not-found file is exactly the records that still failed, the
not-found size does not increase, the found size does not decrease, the sum
of the two sizes is conserved, and rerunning the lookup loop on the new
not-found list with unchanged answers finds nothing new (no duplicates are
ever added to the found list). -/
theorem recheck_monotone_merge {α : Type} (search : α → String)
    (existing : List MBEntry) (items : List α) (h : items ≠ []) :
    (recheck_not_found_items search (.ok existing) (.ok items)).written =
        some (existing ++ newly_found search items, still_not_found search items)
    ∧ still_not_found search items = items.filter (fun i => !pyTruthyS (search i))
    ∧ (still_not_found search items).length ≤ items.length
    ∧ existing.length ≤ (existing ++ newly_found search items).length
    ∧ (existing ++ newly_found search items).length +
        (still_not_found search items).length = existing.length + items.length
    ∧ recheck_process search (still_not_found search items) =
        ([], still_not_found search items) := by
  have hne : items.isEmpty = false := by simpa using h
  have hsplit :
      (newly_found search items).length + (still_not_found search items).length
        = items.length := by
    have hperm := List.filter_append_perm (fun i => pyTruthyS (search i)) items
    have := hperm.length_eq
    simp only [List.length_append] at this
    unfold newly_found still_not_found
    rw [recheck_process_fst, recheck_process_snd]
    simpa using this
  refine ⟨?_, ?_, ?_, ?_, ?_, recheck_process_still_not_found search items⟩
  · simp [recheck_not_found_items, hne, newly_found, still_not_found]
  · unfold still_not_found; rw [recheck_process_snd]
  · unfold still_not_found; rw [recheck_process_snd]; exact List.length_filter_le _ _
  · simp
  · simp only [List.length_append]
    omega

/-- Closed instance of `recheck_monotone_merge`: two loaded records of which
the first now matches, against one previously-found entry. -/
theorem recheck_monotone_merge_witness :
    (recheck_not_found_items (fun n : Nat => if n = 1 then "mbid-1" else "")
        (.ok [MBEntry.mk "e"]) (.ok [1, 2])).written =
        some ([MBEntry.mk "e"] ++ newly_found (fun n : Nat => if n = 1 then "mbid-1" else "") [1, 2],
          still_not_found (fun n : Nat => if n = 1 then "mbid-1" else "") [1, 2])
    ∧ still_not_found (fun n : Nat => if n = 1 then "mbid-1" else "") [1, 2] =
        [1, 2].filter (fun i => !pyTruthyS (if i = 1 then "mbid-1" else ""))
    ∧ (still_not_found (fun n : Nat => if n = 1 then "mbid-1" else "") [1, 2]).length ≤ [1, 2].length
    ∧ [MBEntry.mk "e"].length ≤
        ([MBEntry.mk "e"] ++ newly_found (fun n : Nat => if n = 1 then "mbid-1" else "") [1, 2]).length
    ∧ ([MBEntry.mk "e"] ++ newly_found (fun n : Nat => if n = 1 then "mbid-1" else "") [1, 2]).length +
        (still_not_found (fun n : Nat => if n = 1 then "mbid-1" else "") [1, 2]).length =
        [MBEntry.mk "e"].length + [1, 2].length
    ∧ recheck_process (fun n : Nat => if n = 1 then "mbid-1" else "")
        (still_not_found (fun n : Nat => if n = 1 then "mbid-1" else "") [1, 2]) =
        ([], still_not_found (fun n : Nat => if n = 1 then "mbid-1" else "") [1, 2]) :=
  recheck_monotone_merge (fun n : Nat => if n = 1 then "mbid-1" else "")
    [MBEntry.mk "e"] [1, 2] (by decide)

/-! ### Keep-first deduplication -/

/-- The seen-set formulation computes `dedupFirst` of the list with the
already-seen elements removed. -/
lemma dedupFirstFrom_eq_dedupFirst {β : Type} [DecidableEq β] (l : List β) :
    ∀ seen : List β,
      dedupFirstFrom seen l = dedupFirst (l.filter fun y => decide (y ∉ seen)) := by
  induction l with
  | nil => intro seen; simp [dedupFirstFrom, dedupFirst]
  | cons x xs ih =>
    intro seen
    by_cases hx : x ∈ seen
    · have hd : (decide (x ∉ seen) : Bool) = false := by simp [hx]
      simp only [dedupFirstFrom, if_pos hx, List.filter_cons, hd]
      simp only [Bool.false_eq_true, if_false]
      exact ih seen
    · have hd : (decide (x ∉ seen) : Bool) = true := by simp [hx]
      simp only [dedupFirstFrom, if_neg hx, List.filter_cons, hd, if_true]
      rw [dedupFirst, ih (x :: seen)]
      refine congrArg₂ List.cons rfl (congrArg dedupFirst ?_)
      rw [List.filter_filter]
      apply List.filter_congr
      intro a _
      by_cases h1 : a = x <;> by_cases h2 : a ∈ seen <;> simp [h1, h2]

/-- The seen-set pass emits no duplicates and nothing already seen. -/
lemma dedupFirstFrom_nodup_and_fresh {β : Type} [DecidableEq β] (l : List β) :
    ∀ seen : List β,
      (dedupFirstFrom seen l).Nodup ∧ ∀ y ∈ dedupFirstFrom seen l, y ∉ seen := by
  induction l with
  | nil => intro seen; exact ⟨List.nodup_nil, by simp [dedupFirstFrom]⟩
  | cons x xs ih =>
    intro seen
    by_cases hx : x ∈ seen
    · simpa [dedupFirstFrom, hx] using ih seen
    · obtain ⟨hnd, hfresh⟩ := ih (x :: seen)
      simp only [dedupFirstFrom, if_neg hx]
      constructor
      · rw [List.nodup_cons]
        refine ⟨fun hmem => ?_, hnd⟩
        exact hfresh x hmem (List.mem_cons_self x seen)
      · intro y hy
        rcases List.mem_cons.1 hy with rfl | hy2
        · exact hx
        · exact fun hseen => hfresh y hy2 (List.mem_cons_of_mem x hseen)

/-- After a pass, every processed element is in the seen set. -/
lemma mem_seenAfter {β : Type} [DecidableEq β] (l : List β) :
    ∀ (seen : List β) (y : β), y ∈ l ∨ y ∈ seen → y ∈ seenAfter seen l := by
  induction l with
  | nil =>
    intro seen y h
    simpa [seenAfter] using h.resolve_left (by simp)
  | cons x xs ih =>
    intro seen y h
    by_cases hx : x ∈ seen
    · simp only [seenAfter, if_pos hx]
      apply ih
      rcases h with hl | hr
      · rcases List.mem_cons.1 hl with rfl | h2
        · exact Or.inr hx
        · exact Or.inl h2
      · exact Or.inr hr
    · simp only [seenAfter, if_neg hx]
      apply ih
      rcases h with hl | hr
      · rcases List.mem_cons.1 hl with rfl | h2
        · exact Or.inr (List.mem_cons_self y seen)
        · exact Or.inl h2
      · exact Or.inr (List.mem_cons_of_mem x hr)

/-- A pass over a list of entirely-seen elements emits nothing. -/
lemma dedupFirstFrom_nil_of_subset {β : Type} [DecidableEq β] (l : List β) :
    ∀ seen : List β, (∀ y ∈ l, y ∈ seen) → dedupFirstFrom seen l = [] := by
  induction l with
  | nil => intro seen _; rfl
  | cons x xs ih =>
    intro seen h
    have hx : x ∈ seen := h x (List.mem_cons_self x xs)
    simp only [dedupFirstFrom, if_pos hx]
    exact ih seen fun y hy => h y (List.mem_cons_of_mem x hy)

/-- The seen-set pass splits over concatenation, the second half starting
from the enlarged seen set. -/
lemma dedupFirstFrom_append {β : Type} [DecidableEq β] (l1 : List β) :
    ∀ (l2 seen : List β),
      dedupFirstFrom seen (l1 ++ l2) =
        dedupFirstFrom seen l1 ++ dedupFirstFrom (seenAfter seen l1) l2 := by
  induction l1 with
  | nil => intro l2 seen; rfl
  | cons x xs ih =>
    intro l2 seen
    by_cases hx : x ∈ seen
    · simp only [List.cons_append, dedupFirstFrom, seenAfter, if_pos hx]
      exact ih l2 seen
    · simp only [List.cons_append, dedupFirstFrom, seenAfter, if_neg hx]
      exact congrArg₂ List.cons rfl (ih l2 (x :: seen))

/-- Processing a list twice is the same as processing it once. -/
lemma dedupFirstFrom_self_append {β : Type} [DecidableEq β] (l seen : List β) :
    dedupFirstFrom seen (l ++ l) = dedupFirstFrom seen l := by
  rw [dedupFirstFrom_append]
  rw [dedupFirstFrom_nil_of_subset l (seenAfter seen l)
        (fun y hy => mem_seenAfter l seen y (Or.inl hy))]
  simp

/-- `extract_albums_aux` is the seen-set pass over the keys of the valid
entries, with each key turned back into an album record. -/
lemma extract_albums_aux_eq (ts : List TrackEntry) :
    ∀ seen : List (String × String),
      extract_albums_aux seen ts =
        (dedupFirstFrom seen ((ts.filter validAlbum).map pairOf)).map
          (fun p => AlbumRec.mk p.1 p.2) := by
  induction ts with
  | nil => intro seen; rfl
  | cons t ts_ ih =>
    intro seen
    cases hv : validAlbum t with
    | false =>
      have hv2 : (pyTruthy t.Artist && pyTruthy t.Album) = false := hv
      simp only [extract_albums_aux, hv2, Bool.false_eq_true, if_false,
        List.filter_cons, hv]
      exact ih seen
    | true =>
      have hv2 : (pyTruthy t.Artist && pyTruthy t.Album) = true := hv
      by_cases hk : pairOf t ∈ seen
      · simp only [extract_albums_aux, hv2, if_true, List.filter_cons, hv,
          List.map_cons, dedupFirstFrom]
        rw [if_pos (show (t.Artist.getD "", t.Album.getD "") ∈ seen from hk),
          if_pos hk]
        exact ih seen
      · simp only [extract_albums_aux, hv2, if_true, List.filter_cons, hv,
          List.map_cons, dedupFirstFrom]
        rw [if_neg (show ¬ (t.Artist.getD "", t.Album.getD "") ∈ seen from hk),
          if_neg hk]
        simp only [List.map_cons]
        exact congrArg₂ List.cons rfl (ih (pairOf t :: seen))

/-- C6: `extract_unique_albums` equals keep-first deduplication of the
`(artist, album)` keys of the entries having both fields, so: only entries
with both artist and album present contribute, only the first occurrence of
each pair survives in first-seen order, the output has no duplicate pair,
and feeding the entries twice yields the same output as feeding them
once. -/
theorem extract_unique_albums_dedups_keep_first (tracks : List TrackEntry) :
    extract_unique_albums tracks =
      (dedupFirst ((tracks.filter validAlbum).map pairOf)).map
        (fun p => AlbumRec.mk p.1 p.2)
    ∧ ((extract_unique_albums tracks).map fun a => (a.artist, a.album)).Nodup
    ∧ extract_unique_albums (tracks ++ tracks) = extract_unique_albums tracks := by
  have h0 := extract_albums_aux_eq tracks []
  refine ⟨?_, ?_, ?_⟩
  · rw [extract_unique_albums, h0, dedupFirstFrom_eq_dedupFirst]
    congr 2
    exact List.filter_eq_self.mpr fun a _ => by simp
  · rw [extract_unique_albums, h0, List.map_map]
    have hcomp :
        ((fun a : AlbumRec => (a.artist, a.album)) ∘ fun p : String × String =>
          AlbumRec.mk p.1 p.2) = id := funext fun p => rfl
    rw [hcomp, List.map_id]
    exact (dedupFirstFrom_nodup_and_fresh _ _).1
  · rw [extract_unique_albums, extract_unique_albums,
      extract_albums_aux_eq, extract_albums_aux_eq]
    rw [List.filter_append, List.map_append, dedupFirstFrom_self_append]

/-- C7: `parse_apple_music_xml` yields exactly one record per entry having
both (truthy) artist and title, in the entries' file order, with the album
field carried along verbatim; entries missing either field are dropped
without any error (the function is total). -/
theorem parse_xml_one_record_per_valid_entry (tracks : List TrackEntry) :
    parse_apple_music_xml tracks =
      (tracks.filter fun t => pyTruthy t.Artist && pyTruthy t.Name).map
        (fun t => Song.mk (t.Artist.getD "") (t.Name.getD "") t.Album)
    ∧ (parse_apple_music_xml tracks).length =
        (tracks.filter fun t => pyTruthy t.Artist && pyTruthy t.Name).length := by
  have h : parse_apple_music_xml tracks =
      (tracks.filter fun t => pyTruthy t.Artist && pyTruthy t.Name).map
        (fun t => Song.mk (t.Artist.getD "") (t.Name.getD "") t.Album) := by
    induction tracks with
    | nil => rfl
    | cons t ts ih =>
      simp only [parse_apple_music_xml, List.filter_cons]
      cases hv : (pyTruthy t.Artist && pyTruthy t.Name) <;> simp [hv, ih]
  exact ⟨h, by rw [h, List.length_map]⟩

/-- C8: what is persisted on a miss is the original record. The not-found
list of the batch run and the still-not-found list of a recheck pass are
filters of the input records themselves, kept verbatim; concretely, a song
titled `"T - Single"` whose lookup fails is stored with its original title
even though the query sent to MusicBrainz used the cleaned name `"T"`. -/
theorem miss_persists_original_record (fetch : String → FetchResult)
    (songs : List Song) (items : List Song) :
    (build_lidarr_json fetch songs).2 =
        songs.filter (fun s => !pyTruthyS (search_track fetch s))
    ∧ still_not_found (search_track fetch) items =
        items.filter (fun i => !pyTruthyS (search_track fetch i))
    ∧ (build_lidarr_json (fun _ => .fail) [Song.mk "A" "T - Single" none]).2 =
        [Song.mk "A" "T - Single" none]
    ∧ recording_query "A" "T - Single" none =
        "recording:\"T\" AND artist:\"A\"" := by
  refine ⟨?_, ?_, ?_, ?_⟩
  · rw [build_lidarr_json_eq_process, recheck_process_snd]
  · unfold still_not_found; rw [recheck_process_snd]
  · rfl
  · rfl

/-- C9: a recheck run whose not-found file loads as the empty list performs
no remote lookup (`queried = []`) and writes neither file
(`written = none`), whatever the state of the found file. -/
theorem recheck_empty_not_found_noop {α : Type} (search : α → String)
    (found_file : LoadResult (List MBEntry)) :
    recheck_not_found_items search found_file (.ok ([] : List α)) =
      ⟨none, []⟩ := rfl

/-- C4: on a recheck run, an absent or malformed not-found file, or a
malformed found file, makes the run return before any remote lookup
(`queried = []`) with nothing written (`written = none`); an absent found
file is instead treated exactly like a found file holding the empty list,
and with a non-empty not-found list the run then proceeds to write
normally. -/
theorem recheck_load_failure_handling {α : Type} (search : α → String)
    (found_file : LoadResult (List MBEntry)) (items : List α) (h : items ≠ []) :
    recheck_not_found_items search found_file (.absent : LoadResult (List α)) =
        ⟨none, []⟩
    ∧ recheck_not_found_items search found_file (.malformed : LoadResult (List α)) =
        ⟨none, []⟩
    ∧ recheck_not_found_items search .malformed (.ok items) = ⟨none, []⟩
    ∧ recheck_not_found_items search .absent (.ok items) =
        recheck_not_found_items search (.ok []) (.ok items)
    ∧ (recheck_not_found_items search .absent (.ok items)).written =
        some (newly_found search items, still_not_found search items) := by
  have hne : items.isEmpty = false := by simpa using h
  refine ⟨rfl, rfl, ?_, ?_, ?_⟩
  · simp [recheck_not_found_items, hne]
  · simp [recheck_not_found_items, hne]
  · simp [recheck_not_found_items, hne, newly_found, still_not_found]

/-- Closed instance of `recheck_load_failure_handling`: one loaded record
that still fails, the found file in each scenario of the claim. -/
theorem recheck_load_failure_handling_witness :
    recheck_not_found_items (fun _ : Nat => "") (.ok []) (.absent : LoadResult (List Nat)) =
        ⟨none, []⟩
    ∧ recheck_not_found_items (fun _ : Nat => "") (.ok []) (.malformed : LoadResult (List Nat)) =
        ⟨none, []⟩
    ∧ recheck_not_found_items (fun _ : Nat => "") .malformed (.ok [5]) = ⟨none, []⟩
    ∧ recheck_not_found_items (fun _ : Nat => "") .absent (.ok [5]) =
        recheck_not_found_items (fun _ : Nat => "") (.ok []) (.ok [5])
    ∧ (recheck_not_found_items (fun _ : Nat => "") .absent (.ok [5])).written =
        some (newly_found (fun _ : Nat => "") [5], still_not_found (fun _ : Nat => "") [5]) :=
  recheck_load_failure_handling (fun _ : Nat => "") (.ok []) [5] (by decide)

/-- C5: both single-record lookups turn a raised exception (network
failure, timeout, bad JSON) and a malformed or empty response body into the
absence marker `""`, exactly as for "no match found"; the functions are
total so nothing propagates to the caller, and in the batch loop a record
whose lookup returns `""` lands in the not-found list while the records
after it are still processed and contribute their usual outputs. -/
theorem lookup_failure_treated_as_no_match (artist title album2 : String)
    (album : Option String) (fetch : String → FetchResult)
    (xs ys : List Song) (s : Song)
    (h : search_musicbrainz_recording fetch s.artist s.title s.album = "") :
    search_musicbrainz_recording (fun _ => .fail) artist title album = ""
    ∧ search_musicbrainz_recording (fun _ => .ok none) artist title album = ""
    ∧ search_musicbrainz_recording (fun _ => .ok (some [])) artist title album = ""
    ∧ search_musicbrainz_release_group (fun _ => .fail) artist album2 = ""
    ∧ search_musicbrainz_release_group (fun _ => .ok none) artist album2 = ""
    ∧ search_musicbrainz_release_group (fun _ => .ok (some [])) artist album2 = ""
    ∧ (build_lidarr_json fetch (xs ++ s :: ys)).2 =
        (build_lidarr_json fetch xs).2 ++ s :: (build_lidarr_json fetch ys).2
    ∧ (build_lidarr_json fetch (xs ++ s :: ys)).1 =
        (build_lidarr_json fetch xs).1 ++ (build_lidarr_json fetch ys).1 := by
  have hfail : pyTruthyS (search_track fetch s) = false := by
    simp [search_track, pyTruthyS, h]
  refine ⟨rfl, rfl, rfl, rfl, rfl, rfl, ?_, ?_⟩
  · rw [build_lidarr_json_eq_process, build_lidarr_json_eq_process,
      build_lidarr_json_eq_process, recheck_process_append]
    simp [recheck_process, hfail]
  · rw [build_lidarr_json_eq_process, build_lidarr_json_eq_process,
      build_lidarr_json_eq_process, recheck_process_append]
    simp [recheck_process, hfail]

/-- Closed instance of `lookup_failure_treated_as_no_match`: the oracle
always raises, the failing record sits between two others. -/
theorem lookup_failure_treated_as_no_match_witness :
    search_musicbrainz_recording (fun _ => .fail) "A" "T" none = ""
    ∧ search_musicbrainz_recording (fun _ => .ok none) "A" "T" none = ""
    ∧ search_musicbrainz_recording (fun _ => .ok (some [])) "A" "T" none = ""
    ∧ search_musicbrainz_release_group (fun _ => .fail) "A" "R" = ""
    ∧ search_musicbrainz_release_group (fun _ => .ok none) "A" "R" = ""
    ∧ search_musicbrainz_release_group (fun _ => .ok (some [])) "A" "R" = ""
    ∧ (build_lidarr_json (fun _ => .fail)
          ([Song.mk "B" "U" none] ++ Song.mk "A" "T" none :: [Song.mk "C" "V" none])).2 =
        (build_lidarr_json (fun _ => .fail) [Song.mk "B" "U" none]).2 ++
          Song.mk "A" "T" none :: (build_lidarr_json (fun _ => .fail) [Song.mk "C" "V" none]).2
    ∧ (build_lidarr_json (fun _ => .fail)
          ([Song.mk "B" "U" none] ++ Song.mk "A" "T" none :: [Song.mk "C" "V" none])).1 =
        (build_lidarr_json (fun _ => .fail) [Song.mk "B" "U" none]).1 ++
          (build_lidarr_json (fun _ => .fail) [Song.mk "C" "V" none]).1 :=
  lookup_failure_treated_as_no_match "A" "T" "R" none (fun _ => .fail)
    [Song.mk "B" "U" none] [Song.mk "C" "V" none] (Song.mk "A" "T" none) rfl

/-- C3: the claim that `clean_name_for_search` strips parenthetical
qualifiers fails on the code: the function only removes the four
`" - Single"` / `" - EP"` suffix variants, so `"Abbey Road (Remastered)"`
comes back unchanged, although the repository's own test
(`test_clean_name.py`) expects `"Abbey Road"`. The suffix-free part of the
claim does hold: `"Simple Title"` is returned unchanged. -/
theorem clean_name_keeps_parenthetical_qualifier :
    clean_name_for_search (some "Abbey Road (Remastered)") =
        some "Abbey Road (Remastered)"
    ∧ clean_name_for_search (some "Simple Title") = some "Simple Title"
    ∧ clean_name_for_search (some "Greatest Hits (Deluxe Edition)") =
        some "Greatest Hits (Deluxe Edition)" := ⟨rfl, rfl, rfl⟩

/-- C10: `clean_name_for_search` removes at most one suffix per call and
only when the name ends with one of the four literal variants of
`suffixes_to_remove`; a name ending in no such variant (any other casing, a
suffix not at the end), the empty name, and the null name are all returned
unchanged, and the function is total (never raises). -/
theorem clean_name_suffix_exactness (name : String) :
    clean_name_for_search none = none
    ∧ clean_core "" = ""
    ∧ ((∀ suffix ∈ suffixes_to_remove, endswith name suffix = false) →
        clean_core name = name)
    ∧ (clean_core name = name ∨
        ∃ suffix ∈ suffixes_to_remove, endswith name suffix = true ∧
          clean_core name = name.dropRight suffix.length) := by
  refine ⟨rfl, rfl, ?_, ?_⟩
  · intro hall
    unfold clean_core
    by_cases he : name = ""
    · simp [he]
    · rw [if_neg he]
      have hf : suffixes_to_remove.find? (fun suffix => endswith name suffix) = none :=
        List.find?_eq_none.mpr fun x hx => by simp [hall x hx]
      rw [hf]
  · unfold clean_core
    by_cases he : name = ""
    · left; simp [he]
    · rw [if_neg he]
      cases hf : suffixes_to_remove.find? (fun suffix => endswith name suffix) with
      | none => left; rfl
      | some suffix =>
        right
        refine ⟨suffix, List.mem_of_find?_eq_some hf, ?_, rfl⟩
        simpa using List.find?_some hf

/-- Closed instance of `clean_name_suffix_exactness`: a name ending in the
upper-cased `" - SINGLE"`, which is none of the four variants, is returned
unchanged. -/
theorem clean_name_suffix_exactness_witness :
    clean_core "x - SINGLE" = "x - SINGLE" :=
  (clean_name_suffix_exactness "x - SINGLE").2.2.1 (by decide)

end AppleMusicXmlToLidarr
